import Mathlib

/-!
Verification of the temporal trajectory-analysis mixin of `moscot` against its
natural-language specification.

The development shallowly embeds the relevant Python code:

* `src/moscot/problems/time/_mixins.py` (`TemporalMixin`): interpolation-parameter
  inference, grouping-argument validation, `_get_data` lookup, the
  `cell_transition` aggregation loops, the Wasserstein-distance primitive and the
  random gene-expression interpolation;
* `src/moscot/backends/ott/_output.py` (`LinearOutput._apply`,
  `LRLinearOutput._apply`): rank dispatch of mass application.

Machine floats are modelled by `ℚ` (or `ℝ` where the code takes real powers and
square roots); the float value NaN is modelled by `Option`'s `none`; Python
exceptions are modelled by the `PyExc` inductive together with `Except`.
External collaborators (the OTT solver apply, POT's `emd2`, scikit-learn's
`pairwise_distances`, numpy's `RandomState`) are modelled as explicit function
parameters or, where a claim needs their documented behaviour, by definitions
marked `Modelled from the spec:`.
-/

namespace Moscot

/-- Model of the Python exception classes that the embedded code can raise.
`valueError`, `typeError`, `keyError` and `indexError` carry the message text. -/
inductive PyExc where
  | valueError (msg : String)
  | typeError (msg : String)
  | keyError (msg : String)
  | indexError (msg : String)
deriving DecidableEq

/-- Python's substring containment `needle in hay` on the underlying character
lists: some offset of `hay` starts with `needle`. -/
def charsContainSub (needle hay : List Char) : Bool :=
  (List.range (hay.length + 1)).any (fun i => List.take needle.length (List.drop i hay) == needle)

/-- Python's `needle in hay` on strings. -/
def strContainsSub (needle hay : String) : Bool :=
  charsContainSub needle.data hay.data

/-- Python's `interpolation_parameter is not None and (0 > interpolation_parameter
or interpolation_parameter > 1)` from `_get_interp_param`. -/
def interpOutOfRange : Option ℚ → Bool
  | some p => decide (0 > p ∨ p > 1)
  | none => false

/-- Embedding of `TemporalMixin._get_interp_param`
(src/moscot/problems/time/_mixins.py, lines 610-626).  Time points and the
interpolation parameter are modelled by `ℚ`; each `raise` becomes an
`Except.error` carrying the source message. -/
def get_interp_param (start intermediate fin : ℚ) (interpolation_parameter : Option ℚ) :
    Except PyExc ℚ :=
  if interpOutOfRange interpolation_parameter then
    Except.error (PyExc.valueError "TODO: interpolation parameter must be in [0,1].")
  else if start ≥ intermediate then
    Except.error (PyExc.valueError "TODO: expected start < intermediate")
  else if intermediate ≥ fin then
    Except.error (PyExc.valueError "TODO: expected intermediate < end")
  else
    Except.ok (match interpolation_parameter with
      | some p => p
      | none => (intermediate - start) / (fin - start))

/-- C3: `_get_interp_param(start, intermediate, end, interpolation_parameter)`:
with `interpolation_parameter = None` and `start < intermediate < end` it
returns exactly `(intermediate - start) / (end - start)`, in particular `0.5`
at `(0, 1, 2)` and `0.75` at `(0, 3, 4)`; it raises a `ValueError` whenever
`start >= intermediate` or `intermediate >= end` (e.g. at
`start = 2, intermediate = 1, end = 4`), and whenever a supplied parameter lies
outside `[0, 1]`. -/
theorem get_interp_param_spec :
    (∀ s i e : ℚ, s < i → i < e →
      get_interp_param s i e none = Except.ok ((i - s) / (e - s))) ∧
    get_interp_param 0 1 2 none = Except.ok (1 / 2) ∧
    get_interp_param 0 3 4 none = Except.ok (3 / 4) ∧
    (∀ s i e : ℚ, ∀ p : Option ℚ, s ≥ i ∨ i ≥ e →
      ∃ m, get_interp_param s i e p = Except.error (PyExc.valueError m)) ∧
    (∃ m, get_interp_param 2 1 4 none = Except.error (PyExc.valueError m)) ∧
    (∀ s i e q : ℚ, q < 0 ∨ q > 1 →
      ∃ m, get_interp_param s i e (some q) = Except.error (PyExc.valueError m)) := by
  have hok : ∀ s i e : ℚ, s < i → i < e →
      get_interp_param s i e none = Except.ok ((i - s) / (e - s)) := by
    intro s i e hsi hie
    unfold get_interp_param
    rw [if_neg (by simp [interpOutOfRange]), if_neg (not_le.mpr hsi), if_neg (not_le.mpr hie)]
  have hmono : ∀ s i e : ℚ, ∀ p : Option ℚ, s ≥ i ∨ i ≥ e →
      ∃ m, get_interp_param s i e p = Except.error (PyExc.valueError m) := by
    intro s i e p h
    unfold get_interp_param
    by_cases h0 : interpOutOfRange p = true
    · rw [if_pos h0]; exact ⟨_, rfl⟩
    · rw [if_neg h0]
      rcases h with h | h
      · rw [if_pos h]; exact ⟨_, rfl⟩
      · by_cases h1 : s ≥ i
        · rw [if_pos h1]; exact ⟨_, rfl⟩
        · rw [if_neg h1, if_pos h]; exact ⟨_, rfl⟩
  have hrange : ∀ s i e q : ℚ, q < 0 ∨ q > 1 →
      ∃ m, get_interp_param s i e (some q) = Except.error (PyExc.valueError m) := by
    intro s i e q h
    unfold get_interp_param
    rw [if_pos (by simp only [interpOutOfRange, decide_eq_true_eq]; exact h)]
    exact ⟨_, rfl⟩
  exact ⟨hok,
    by rw [hok 0 1 2 (by norm_num) (by norm_num)]; norm_num,
    by rw [hok 0 3 4 (by norm_num) (by norm_num)]; norm_num,
    hmono, hmono 2 1 4 none (Or.inl (by norm_num)), hrange⟩

/-- Concrete instantiation of `get_interp_param_spec`: the linear inference at
`(0, 1, 2)` and the validation failure at `(2, 1, 4)`. -/
theorem get_interp_param_spec_witness :
    get_interp_param 0 1 2 none = Except.ok ((1 - 0) / (2 - 0)) ∧
    (∃ m, get_interp_param 2 1 4 none = Except.error (PyExc.valueError m)) ∧
    (∃ m, get_interp_param 0 1 2 (some 5) = Except.error (PyExc.valueError m)) :=
  ⟨get_interp_param_spec.1 0 1 2 (by norm_num) (by norm_num),
   get_interp_param_spec.2.2.2.1 2 1 4 none (Or.inl (by norm_num)),
   get_interp_param_spec.2.2.2.2.2 0 1 2 5 (Or.inr (by norm_num))⟩

/-- Model of one column of `adata.obs`: whether it has categorical dtype, its
list of categories, and its per-cell values (`none` models a missing/NaN
value). -/
structure ObsColumn where
  isCat : Bool
  categories : List String
  values : List (Option String)
deriving DecidableEq

/-- The grouping argument of `cell_transition`: a string (a column name), a
mapping from column names to category subsets, or any value of another type
(e.g. a bare list of categories), which `isinstance` checks both reject. -/
inductive CTArg where
  | str (s : String)
  | dict (entries : List (String × List String))
  | other
deriving DecidableEq

/-- Embedding of `TemporalMixin._validate_args_cell_transition`
(src/moscot/problems/time/_mixins.py, lines 267-292).  `adata.obs` is modelled
as an association list of named columns.  The success value is wrapped in
`Option` because the Python function has no `return` on the fall-through path
and hence returns `None` for an argument that is neither `str` nor `dict`. -/
def validate_args_cell_transition (obs : List (String × ObsColumn)) (arg : CTArg) :
    Except PyExc (Option (String × List String)) :=
  match arg with
  | CTArg.str s =>
    match obs.lookup s with
    | none => Except.error (PyExc.keyError "TODO")
    | some col =>
      if col.isCat = false then
        Except.error (PyExc.typeError "The column in adata.obs must be of categorical dtype.")
      else if col.values.contains none then
        Except.error (PyExc.valueError "The column in adata.obs contains NaN values. Please check.")
      else Except.ok (some (s, col.categories))
  | CTArg.dict entries =>
    if entries.length > 1 then
      Except.error (PyExc.valueError "The length of the dictionary should be 1 as the data can only be filtered according to one column of adata.obs.")
    else
      match entries with
      | [] => Except.error (PyExc.indexError "list index out of range")
      | (k, v) :: _ =>
        match obs.lookup k with
        | none => Except.error (PyExc.keyError k)
        | some col =>
          if col.isCat = false then
            Except.error (PyExc.typeError "The column in adata.obs must be of categorical dtype.")
          else if (v.all fun c => col.categories.contains c) = false then
            Except.error (PyExc.valueError "Not all values could be found in adata.obs.")
          else if col.values.contains none then
            Except.error (PyExc.valueError "The column in adata.obs contains NaN values. Please check.")
          else Except.ok (some (k, v))
  | CTArg.other => Except.ok none

/-- Python's tuple unpacking `key, cells = self._validate_args_cell_transition(arg)`
at src/moscot/problems/time/_mixins.py, lines 187-188: unpacking `None` raises
a `TypeError`, and any exception from the callee propagates. -/
def unpackValidated (r : Except PyExc (Option (String × List String))) :
    Except PyExc (String × List String) :=
  match r with
  | Except.error e => Except.error e
  | Except.ok none => Except.error (PyExc.typeError "cannot unpack non-iterable NoneType object")
  | Except.ok (some p) => Except.ok p

/-- C6: `_validate_args_cell_transition` raises a `TypeError` when the named
column is not categorical (in both the string and the mapping form), a
`ValueError` when a requested category of a mapping argument is not among the
column's categories, a `ValueError` when the column contains missing values,
and a `ValueError` when a mapping argument names more than one column; a valid
string argument returns the column name with all of the column's categories. -/
theorem validate_args_cell_transition_spec :
    (∀ obs s col, obs.lookup s = some col → col.isCat = false →
      ∃ m, validate_args_cell_transition obs (CTArg.str s) = Except.error (PyExc.typeError m)) ∧
    (∀ obs k v col, obs.lookup k = some col → col.isCat = false →
      ∃ m, validate_args_cell_transition obs (CTArg.dict [(k, v)]) =
        Except.error (PyExc.typeError m)) ∧
    (∀ obs k v col c, obs.lookup k = some col → col.isCat = true →
      c ∈ v → col.categories.contains c = false →
      ∃ m, validate_args_cell_transition obs (CTArg.dict [(k, v)]) =
        Except.error (PyExc.valueError m)) ∧
    (∀ obs s col, obs.lookup s = some col → col.isCat = true → none ∈ col.values →
      ∃ m, validate_args_cell_transition obs (CTArg.str s) =
        Except.error (PyExc.valueError m)) ∧
    (∀ obs entries, entries.length > 1 →
      ∃ m, validate_args_cell_transition obs (CTArg.dict entries) =
        Except.error (PyExc.valueError m)) ∧
    (∀ obs s col, obs.lookup s = some col → col.isCat = true → ¬ (none ∈ col.values) →
      validate_args_cell_transition obs (CTArg.str s) =
        Except.ok (some (s, col.categories))) := by
  refine ⟨?_, ?_, ?_, ?_, ?_, ?_⟩
  · intro obs s col hl hcat
    simp only [validate_args_cell_transition, hl, hcat]
    exact ⟨_, rfl⟩
  · intro obs k v col hl hcat
    simp only [validate_args_cell_transition, List.length_cons, List.length_nil, hl, hcat]
    norm_num
  · intro obs k v col c hl hcat hc hnc
    have hnmem : c ∉ col.categories := by
      intro hmem
      simp [List.contains, List.elem_eq_mem, hmem] at hnc
    have hex : ∃ x ∈ v, x ∉ col.categories := ⟨c, hc, hnmem⟩
    simp only [validate_args_cell_transition, List.length_cons, List.length_nil, hl, hcat]
    norm_num [hex]
  · intro obs s col hl hcat hnull
    simp only [validate_args_cell_transition, hl, hcat]
    norm_num [hnull]
  · intro obs entries hlen
    simp only [validate_args_cell_transition, if_pos hlen]
    exact ⟨_, rfl⟩
  · intro obs s col hl hcat hnull
    simp only [validate_args_cell_transition, hl, hcat]
    norm_num [hnull]

/-- Concrete instantiation of `validate_args_cell_transition_spec` on a
two-column `adata.obs`. -/
theorem validate_args_cell_transition_spec_witness :
    (∃ m, validate_args_cell_transition [("num", ⟨false, [], [some "x"]⟩)] (CTArg.str "num") =
      Except.error (PyExc.typeError m)) ∧
    (∃ m, validate_args_cell_transition [("num", ⟨false, [], [some "x"]⟩)]
      (CTArg.dict [("num", ["x"])]) = Except.error (PyExc.typeError m)) ∧
    (∃ m, validate_args_cell_transition [("ct", ⟨true, ["A", "B"], [some "A"]⟩)]
      (CTArg.dict [("ct", ["C"])]) = Except.error (PyExc.valueError m)) ∧
    (∃ m, validate_args_cell_transition [("ct", ⟨true, ["A", "B"], [some "A", none]⟩)]
      (CTArg.str "ct") = Except.error (PyExc.valueError m)) ∧
    (∃ m, validate_args_cell_transition [] (CTArg.dict [("a", []), ("b", [])]) =
      Except.error (PyExc.valueError m)) ∧
    validate_args_cell_transition [("ct", ⟨true, ["A", "B"], [some "A"]⟩)] (CTArg.str "ct") =
      Except.ok (some ("ct", ["A", "B"])) := by
  obtain ⟨h1, h2, h3, h4, h5, h6⟩ := validate_args_cell_transition_spec
  exact ⟨h1 _ "num" _ (by rfl) (by rfl),
    h2 _ "num" ["x"] _ (by rfl) (by rfl),
    h3 _ "ct" ["C"] _ "C" (by rfl) (by rfl) (by simp) (by rfl),
    h4 _ "ct" _ (by rfl) (by rfl) (by simp),
    h5 _ [("a", []), ("b", [])] (by simp),
    h6 _ "ct" _ (by rfl) (by rfl) (by simp)⟩

/-- C10: a grouping argument that is neither a `str` nor a `dict` falls through
both `isinstance` branches of `_validate_args_cell_transition`, which therefore
returns `None` instead of raising a validation error, and the tuple unpacking
in `cell_transition` then fails with a `TypeError` rather than with one of the
documented validation conditions. -/
theorem validate_args_fallthrough_none :
    ∀ obs : List (String × ObsColumn),
      validate_args_cell_transition obs CTArg.other = Except.ok none ∧
      unpackValidated (validate_args_cell_transition obs CTArg.other) =
        Except.error (PyExc.typeError "cannot unpack non-iterable NoneType object") :=
  fun _ => ⟨rfl, rfl⟩

/-- Model of a `SubProblem` as `_get_data` accesses it: the tag of its `xy`
container, opaque handles (`ℕ`) for the source point cloud (`xy.data`), the
target point cloud (`xy.data_y`), the associated `adata` and the growth-rate
vector. -/
structure SubProb where
  xyTag : String
  xyData : ℕ
  xyDataY : ℕ
  adata : ℕ
  growthRates : ℕ
deriving DecidableEq

/-- The failures of `_get_data`: a non-`point_cloud` tag (a validation
condition) or the spec's lookup-error kind, a `ValueError` whose message is
"No data found for time point ..."; `site` records which of the three scans
failed (0 = start, 1 = intermediate, 2 = end). -/
inductive GDErr where
  | badTag (tag : String)
  | noData (site : ℕ)
deriving DecidableEq

/-- The two result shapes of `_get_data`. -/
inductive GDResult where
  | startOnly (sourceData adata : ℕ)
  | full (sourceData growthRates intermediateData intermediateAdata targetData : ℕ)
deriving DecidableEq

/-- First scan of `_get_data` (lines 304-319): each visited problem's tag is
checked before the source time point, and the scan stops at the first
`src == start`; the exhausted-loop `else` raises the no-data `ValueError`. -/
def findStartProb {K : Type} [DecidableEq K] (start : K) :
    List ((K × K) × SubProb) → Except GDErr SubProb
  | [] => Except.error (GDErr.noData 0)
  | (st, p) :: rest =>
    if p.xyTag ≠ "point_cloud" then Except.error (GDErr.badTag p.xyTag)
    else if st.1 = start then Except.ok p
    else findStartProb start rest

/-- Second scan of `_get_data` (lines 320-326): first problem whose source
equals `intermediate` (an `Optional` time point, so a `None` never matches). -/
def findIntermediateProb {K : Type} [DecidableEq K] (intermediate : Option K) :
    List ((K × K) × SubProb) → Except GDErr SubProb
  | [] => Except.error (GDErr.noData 1)
  | (st, p) :: rest =>
    if some st.1 = intermediate then Except.ok p else findIntermediateProb intermediate rest

/-- Third scan of `_get_data` (lines 327-332): first problem whose target
equals `end`. -/
def findEndProb {K : Type} [DecidableEq K] (fin : Option K) :
    List ((K × K) × SubProb) → Except GDErr SubProb
  | [] => Except.error (GDErr.noData 2)
  | (st, p) :: rest =>
    if some st.2 = fin then Except.ok p else findEndProb fin rest

/-- Embedding of `TemporalMixin._get_data`
(src/moscot/problems/time/_mixins.py, lines 295-334).  The problem collection
is the insertion-ordered list of `((src, tgt), SubProblem)` pairs. -/
def get_data {K : Type} [DecidableEq K] (problems : List ((K × K) × SubProb)) (start : K)
    (intermediate fin : Option K) (only_start : Bool) : Except GDErr GDResult :=
  match findStartProb start problems with
  | Except.error e => Except.error e
  | Except.ok p =>
    if only_start then Except.ok (GDResult.startOnly p.xyData p.adata)
    else
      match findIntermediateProb intermediate problems with
      | Except.error e => Except.error e
      | Except.ok q =>
        match findEndProb fin problems with
        | Except.error e => Except.error e
        | Except.ok r =>
          Except.ok (GDResult.full p.xyData p.growthRates q.xyData q.adata r.xyDataY)

lemma findStartProb_error {K : Type} [DecidableEq K] (start : K) :
    ∀ l : List ((K × K) × SubProb), (∀ pr ∈ l, pr.2.xyTag = "point_cloud") →
      (∀ pr ∈ l, pr.1.1 ≠ start) → findStartProb start l = Except.error (GDErr.noData 0) := by
  intro l
  induction l with
  | nil => intro _ _; rfl
  | cons hd tl ih =>
    intro htag hne
    rw [findStartProb]
    rw [if_neg (by simp [htag hd (List.mem_cons_self hd tl)]),
      if_neg (hne hd (List.mem_cons_self hd tl))]
    exact ih (fun pr hpr => htag pr (List.mem_cons_of_mem hd hpr))
      (fun pr hpr => hne pr (List.mem_cons_of_mem hd hpr))

lemma findStartProb_ok {K : Type} [DecidableEq K] (start : K) :
    ∀ l : List ((K × K) × SubProb), (∀ pr ∈ l, pr.2.xyTag = "point_cloud") →
      (∃ pr ∈ l, pr.1.1 = start) → ∃ p, findStartProb start l = Except.ok p := by
  intro l
  induction l with
  | nil => rintro _ ⟨pr, hmem, _⟩; exact absurd hmem (List.not_mem_nil pr)
  | cons hd tl ih =>
    rintro htag ⟨pr, hmem, heq⟩
    rw [findStartProb]
    rw [if_neg (by simp [htag hd (List.mem_cons_self hd tl)])]
    by_cases hhd : hd.1.1 = start
    · rw [if_pos hhd]; exact ⟨hd.2, rfl⟩
    · rcases List.mem_cons.mp hmem with rfl | hmem2
      · exact absurd heq hhd
      · rw [if_neg hhd]
        exact ih (fun q hq => htag q (List.mem_cons_of_mem hd hq)) ⟨pr, hmem2, heq⟩

lemma findIntermediateProb_error {K : Type} [DecidableEq K] (i : Option K) :
    ∀ l : List ((K × K) × SubProb), (∀ pr ∈ l, some pr.1.1 ≠ i) →
      findIntermediateProb i l = Except.error (GDErr.noData 1) := by
  intro l
  induction l with
  | nil => intro _; rfl
  | cons hd tl ih =>
    intro hne
    rw [findIntermediateProb, if_neg (hne hd (List.mem_cons_self hd tl))]
    exact ih fun pr hpr => hne pr (List.mem_cons_of_mem hd hpr)

lemma findIntermediateProb_ok {K : Type} [DecidableEq K] (i : Option K) :
    ∀ l : List ((K × K) × SubProb), (∃ pr ∈ l, some pr.1.1 = i) →
      ∃ q, findIntermediateProb i l = Except.ok q := by
  intro l
  induction l with
  | nil => rintro ⟨pr, hmem, _⟩; exact absurd hmem (List.not_mem_nil pr)
  | cons hd tl ih =>
    rintro ⟨pr, hmem, heq⟩
    rw [findIntermediateProb]
    by_cases hhd : some hd.1.1 = i
    · rw [if_pos hhd]; exact ⟨hd.2, rfl⟩
    · rcases List.mem_cons.mp hmem with rfl | hmem2
      · exact absurd heq hhd
      · rw [if_neg hhd]
        exact ih ⟨pr, hmem2, heq⟩

lemma findEndProb_error {K : Type} [DecidableEq K] (e : Option K) :
    ∀ l : List ((K × K) × SubProb), (∀ pr ∈ l, some pr.1.2 ≠ e) →
      findEndProb e l = Except.error (GDErr.noData 2) := by
  intro l
  induction l with
  | nil => intro _; rfl
  | cons hd tl ih =>
    intro hne
    rw [findEndProb, if_neg (hne hd (List.mem_cons_self hd tl))]
    exact ih fun pr hpr => hne pr (List.mem_cons_of_mem hd hpr)

/-- C5: when the problem collection contains no sub-problem whose source equals
`start` (or, with `only_start = False`, none whose source equals `intermediate`
or none whose target equals `end`), `_get_data` fails immediately with the
spec's lookup-error kind (the "No data found for time point" `ValueError`) for
the corresponding scan; hence `compute_interpolated_distance`,
`compute_random_distance`, `compute_time_point_distances` and
`compute_batch_distances`, all of which call `_get_data` first, fail for that
call.  The tag hypothesis rules out the earlier non-`point_cloud` validation
failure. -/
theorem get_data_lookup_error {K : Type} [DecidableEq K]
    (problems : List ((K × K) × SubProb)) (start : K) (intermediate fin : Option K)
    (only_start : Bool) (htag : ∀ pr ∈ problems, pr.2.xyTag = "point_cloud") :
    ((∀ pr ∈ problems, pr.1.1 ≠ start) →
      get_data problems start intermediate fin only_start = Except.error (GDErr.noData 0)) ∧
    ((∃ pr ∈ problems, pr.1.1 = start) → (∀ pr ∈ problems, some pr.1.1 ≠ intermediate) →
      get_data problems start intermediate fin false = Except.error (GDErr.noData 1)) ∧
    ((∃ pr ∈ problems, pr.1.1 = start) → (∃ pr ∈ problems, some pr.1.1 = intermediate) →
      (∀ pr ∈ problems, some pr.1.2 ≠ fin) →
      get_data problems start intermediate fin false = Except.error (GDErr.noData 2)) := by
  refine ⟨?_, ?_, ?_⟩
  · intro hne
    rw [get_data, findStartProb_error start problems htag hne]
  · intro hstart hni
    obtain ⟨p, hp⟩ := findStartProb_ok start problems htag hstart
    simp only [get_data, hp, Bool.false_eq_true, if_false,
      findIntermediateProb_error intermediate problems hni]
  · intro hstart hi hne
    obtain ⟨p, hp⟩ := findStartProb_ok start problems htag hstart
    obtain ⟨q, hq⟩ := findIntermediateProb_ok intermediate problems hi
    simp only [get_data, hp, Bool.false_eq_true, if_false, hq,
      findEndProb_error fin problems hne]

/-- Concrete instantiation of `get_data_lookup_error`: a single problem
`(0, 1)` with a `point_cloud` tag; time point `5` is absent as a source, `none`
never matches as an intermediate, and `some 7` is absent as a target. -/
theorem get_data_lookup_error_witness :
    get_data [((0, 1), ⟨"point_cloud", 0, 0, 0, 0⟩)] (5 : ℕ) none none true =
      Except.error (GDErr.noData 0) ∧
    get_data [((0, 1), ⟨"point_cloud", 0, 0, 0, 0⟩)] (0 : ℕ) none none false =
      Except.error (GDErr.noData 1) ∧
    get_data [((0, 1), ⟨"point_cloud", 0, 0, 0, 0⟩)] (0 : ℕ) (some 0) (some 7) false =
      Except.error (GDErr.noData 2) :=
  ⟨(get_data_lookup_error [((0, 1), ⟨"point_cloud", 0, 0, 0, 0⟩)] 5 none none true
      (by decide)).1 (by decide),
   (get_data_lookup_error [((0, 1), ⟨"point_cloud", 0, 0, 0, 0⟩)] 0 none none false
      (by decide)).2.1 ⟨((0, 1), ⟨"point_cloud", 0, 0, 0, 0⟩), by decide, rfl⟩ (by decide),
   (get_data_lookup_error [((0, 1), ⟨"point_cloud", 0, 0, 0, 0⟩)] 0 (some 0) (some 7) false
      (by decide)).2.2 ⟨((0, 1), ⟨"point_cloud", 0, 0, 0, 0⟩), by decide, rfl⟩
     ⟨((0, 1), ⟨"point_cloud", 0, 0, 0, 0⟩), by decide, rfl⟩ (by decide)⟩

/-- An n-dimensional array as the `_apply` rank dispatch sees it: its rank
(`ndim`) plus an opaque payload. -/
structure NdArr (α : Type) where
  ndim : ℕ
  data : α

/-- Embedding of `LinearOutput._apply`
(src/moscot/backends/ott/_output.py, lines 53-59).  The OTT solver apply and
the transposition are external and passed as function parameters; Python's
`axis=1 - forward` is `1 - (if forward then 1 else 0)`. -/
def LinearOutput_apply {α : Type} (app : α → ℕ → α) (transposeF : α → α)
    (x : NdArr α) (forward : Bool) : Except PyExc (NdArr α) :=
  if x.ndim = 1 then
    Except.ok ⟨x.ndim, app x.data (1 - (if forward then 1 else 0))⟩
  else if x.ndim = 2 then
    Except.ok ⟨x.ndim, transposeF (app (transposeF x.data) (1 - (if forward then 1 else 0)))⟩
  else Except.error (PyExc.valueError "TODO - dim error")

/-- Embedding of `LRLinearOutput._apply`
(src/moscot/backends/ott/_output.py, lines 75-81).  `axis = int(not forward)`;
the per-column stacked apply of the 2-D branch is the external `stackApp`. -/
def LRLinearOutput_apply {α : Type} (app : α → ℕ → α) (stackApp : α → ℕ → α)
    (x : NdArr α) (forward : Bool) : Except PyExc (NdArr α) :=
  if x.ndim = 1 then
    Except.ok ⟨x.ndim, app x.data (if forward then 0 else 1)⟩
  else if x.ndim = 2 then
    Except.ok ⟨x.ndim, stackApp x.data (if forward then 0 else 1)⟩
  else Except.error (PyExc.valueError "TODO - dim error")

/-- C9: for every input array whose rank is neither 1 nor 2, both
`LinearOutput._apply` and `LRLinearOutput._apply` fail immediately with the
dimension `ValueError`, in the forward and the backward direction alike. -/
theorem output_apply_dim_error {α : Type} (app transApp stackApp : α → ℕ → α)
    (transposeF : α → α) (x : NdArr α) (forward : Bool)
    (h1 : x.ndim ≠ 1) (h2 : x.ndim ≠ 2) :
    LinearOutput_apply transApp transposeF x forward =
      Except.error (PyExc.valueError "TODO - dim error") ∧
    LRLinearOutput_apply app stackApp x forward =
      Except.error (PyExc.valueError "TODO - dim error") := by
  constructor
  · rw [LinearOutput_apply, if_neg h1, if_neg h2]
  · rw [LRLinearOutput_apply, if_neg h1, if_neg h2]

/-- Concrete instantiation of `output_apply_dim_error` at rank 3 (a stacked
batch of matrices), in both directions. -/
theorem output_apply_dim_error_witness :
    (LinearOutput_apply (fun (a : Unit) _ => a) id ⟨3, ()⟩ true =
      Except.error (PyExc.valueError "TODO - dim error") ∧
     LRLinearOutput_apply (fun (a : Unit) _ => a) (fun a _ => a) ⟨3, ()⟩ true =
      Except.error (PyExc.valueError "TODO - dim error")) ∧
    (LinearOutput_apply (fun (a : Unit) _ => a) id ⟨0, ()⟩ false =
      Except.error (PyExc.valueError "TODO - dim error") ∧
     LRLinearOutput_apply (fun (a : Unit) _ => a) (fun a _ => a) ⟨0, ()⟩ false =
      Except.error (PyExc.valueError "TODO - dim error")) :=
  ⟨output_apply_dim_error (fun a _ => a) (fun a _ => a) (fun a _ => a) id ⟨3, ()⟩ true
      (by decide) (by decide),
   output_apply_dim_error (fun a _ => a) (fun a _ => a) (fun a _ => a) id ⟨0, ()⟩ false
      (by decide) (by decide)⟩

/-- The `except ValueError as e: if "no mass" in str(e)` test of
`cell_transition` (src/moscot/problems/time/_mixins.py, lines 216-217 and
250-251): only a `ValueError` whose message contains the substring
`"no mass"` is caught. -/
def isNoMassVE : PyExc → Bool
  | PyExc.valueError msg => strContainsSub "no mass" msg
  | _ => false

/-- Sequential traversal with fail-fast exception propagation: the Python
`for` loop of `cell_transition` computes one row per category and an uncaught
exception aborts the whole call. -/
def mapExcept {ε α β : Type} (f : α → Except ε β) : List α → Except ε (List β)
  | [] => Except.ok []
  | a :: l =>
    match f a with
    | Except.error e => Except.error e
    | Except.ok b =>
      match mapExcept f l with
      | Except.error e => Except.error e
      | Except.ok bs => Except.ok (b :: bs)

/-- The grouping step of one `cell_transition` row
(src/moscot/problems/time/_mixins.py, lines 224-232 and 256-264):
the per-cell mass `result` is written into the `distribution` column, cells are
filtered to those whose group label is one of `groupCats`, grouped by label and
summed (pandas sums an all-NaN group to 0), the group sums are divided by their
total, and the row is read off in `groupCats` order.  `result = none` models the
scalar NaN assigned after a caught "no mass" failure; a zero total models the
pandas float division `0/0`, which is NaN, hence an entry of `none`. -/
def rowFromResult (groupCats groupLabels : List String) (result : Option (List ℚ)) :
    List (Option ℚ) :=
  match result with
  | none => groupCats.map fun _ => none
  | some res =>
    let pairs := groupLabels.zip res
    let total := ((pairs.filter fun p => decide (p.1 ∈ groupCats)).map Prod.snd).sum
    groupCats.map fun c =>
      if total = 0 then none
      else some ((((pairs.filter fun p => decide (p.1 = c)).map Prod.snd).sum) / total)

/-- The `try/except` around one push/pull of `cell_transition`
(src/moscot/problems/time/_mixins.py, lines 205-223 and 239-255): a `ValueError`
containing "no mass" is converted into the scalar-NaN result, any other
exception propagates. -/
def handlePush (groupCats groupLabels : List String) (subset : String) :
    Except PyExc (List ℚ) → Except PyExc (String × List (Option ℚ))
  | Except.ok d => Except.ok (subset, rowFromResult groupCats groupLabels (some d))
  | Except.error e =>
    if isNoMassVE e then Except.ok (subset, rowFromResult groupCats groupLabels none)
    else Except.error e

/-- One iteration of the `cell_transition` category loop
(src/moscot/problems/time/_mixins.py, lines 199-232 forward, 234-264 backward):
a category that is not in `set(subsetCats) ∩ set(subsetLabels)` (no observed
member) gets an all-NaN row without any push; otherwise the propagated mass is
grouped into a row, with the "no mass" catch.  `subsetLabels` are the grouping
column's values over the cells of the subset-side time point. -/
def transitionRow (subsetCats groupCats subsetLabels groupLabels : List String)
    (push : String → Except PyExc (List ℚ)) (subset : String) :
    Except PyExc (String × List (Option ℚ)) :=
  if subset ∈ subsetCats ∧ subset ∈ subsetLabels then
    handlePush groupCats groupLabels subset (push subset)
  else Except.ok (subset, groupCats.map fun _ => none)

/-- The category loop of `cell_transition`, shared by the forward and the
backward direction (the two loops of
src/moscot/problems/time/_mixins.py, lines 199-265, are textually symmetric).
The table is the list of `(subset category, its row)` in `subsetCats` order; in
the forward direction a "row" is a table row over the late categories, in the
backward direction it is a table column over the early categories. -/
def cellTransitionHalf (subsetCats groupCats subsetLabels groupLabels : List String)
    (push : String → Except PyExc (List ℚ)) :
    Except PyExc (List (String × List (Option ℚ))) :=
  mapExcept (transitionRow subsetCats groupCats subsetLabels groupLabels push) subsetCats

/-- `cell_transition(..., forward=True)`: rows are early categories, grouping is
by the late column over the cells at `end`, and `push` is the subset-filtered,
non-marginal-rescaled forward propagation. -/
def cell_transition_forward (earlyCats lateCats earlyLabels lateLabels : List String)
    (push : String → Except PyExc (List ℚ)) :
    Except PyExc (List (String × List (Option ℚ))) :=
  cellTransitionHalf earlyCats lateCats earlyLabels lateLabels push

/-- `cell_transition(..., forward=False)`: columns are late categories,
grouping is by the early column over the cells at `start`, and `pull` is the
backward propagation. -/
def cell_transition_backward (earlyCats lateCats earlyLabels lateLabels : List String)
    (pull : String → Except PyExc (List ℚ)) :
    Except PyExc (List (String × List (Option ℚ))) :=
  cellTransitionHalf lateCats earlyCats lateLabels earlyLabels pull

lemma mapExcept_cons_ok {ε α β : Type} {f : α → Except ε β} {a : α} {l : List α} {b : β}
    {ys : List β} (ha : f a = Except.ok b) (hl : mapExcept f l = Except.ok ys) :
    mapExcept f (a :: l) = Except.ok (b :: ys) := by
  simp [mapExcept, ha, hl]

lemma mapExcept_cons_error {ε α β : Type} {f : α → Except ε β} {a : α} {l : List α} {e : ε}
    (ha : f a = Except.error e) : mapExcept f (a :: l) = Except.error e := by
  simp [mapExcept, ha]

lemma mapExcept_append_ok_ok {ε α β : Type} {f : α → Except ε β} :
    ∀ {l1 l2 : List α} {ys zs : List β}, mapExcept f l1 = Except.ok ys →
      mapExcept f l2 = Except.ok zs → mapExcept f (l1 ++ l2) = Except.ok (ys ++ zs) := by
  intro l1
  induction l1 with
  | nil =>
    intro l2 ys zs h1 h2
    simp only [mapExcept] at h1
    cases h1
    simpa using h2
  | cons a t ih =>
    intro l2 ys zs h1 h2
    simp only [mapExcept] at h1
    cases ha : f a with
    | error e => rw [ha] at h1; simp at h1
    | ok b =>
      rw [ha] at h1
      cases ht : mapExcept f t with
      | error e => rw [ht] at h1; simp at h1
      | ok bs =>
        rw [ht] at h1
        simp only at h1
        cases h1
        simpa using mapExcept_cons_ok ha (ih ht h2)

lemma mapExcept_append_ok_error {ε α β : Type} {f : α → Except ε β} :
    ∀ {l1 l2 : List α} {ys : List β} {e : ε}, mapExcept f l1 = Except.ok ys →
      mapExcept f l2 = Except.error e → mapExcept f (l1 ++ l2) = Except.error e := by
  intro l1
  induction l1 with
  | nil =>
    intro l2 ys e h1 h2
    simpa using h2
  | cons a t ih =>
    intro l2 ys e h1 h2
    simp only [mapExcept] at h1
    cases ha : f a with
    | error e2 => rw [ha] at h1; simp at h1
    | ok b =>
      rw [ha] at h1
      cases ht : mapExcept f t with
      | error e2 => rw [ht] at h1; simp at h1
      | ok bs =>
        have := ih ht h2
        rw [List.cons_append]
        simp [mapExcept, ha, this]

lemma mapExcept_ok_mem {ε α β : Type} (f : α → Except ε β) :
    ∀ (l : List α) (ys : List β), mapExcept f l = Except.ok ys →
      ∀ y ∈ ys, ∃ x ∈ l, f x = Except.ok y := by
  intro l
  induction l with
  | nil =>
    intro ys h y hy
    simp only [mapExcept] at h
    cases h
    simp at hy
  | cons a t ih =>
    intro ys h y hy
    simp only [mapExcept] at h
    cases ha : f a with
    | error e => rw [ha] at h; simp at h
    | ok b =>
      rw [ha] at h
      cases ht : mapExcept f t with
      | error e => rw [ht] at h; simp at h
      | ok bs =>
        rw [ht] at h
        simp only at h
        cases h
        rcases List.mem_cons.mp hy with rfl | hy2
        · exact ⟨a, List.mem_cons_self a t, ha⟩
        · obtain ⟨x, hx, hfx⟩ := ih bs ht y hy2
          exact ⟨x, List.mem_cons_of_mem a hx, hfx⟩

lemma mapExcept_ok_of_forall {ε α β : Type} (f : α → Except ε β) :
    ∀ l : List α, (∀ x ∈ l, ∃ y, f x = Except.ok y) →
      ∃ ys, mapExcept f l = Except.ok ys := by
  intro l
  induction l with
  | nil => intro _; exact ⟨[], rfl⟩
  | cons a t ih =>
    intro h
    obtain ⟨b, hb⟩ := h a (List.mem_cons_self a t)
    obtain ⟨bs, hbs⟩ := ih fun x hx => h x (List.mem_cons_of_mem a hx)
    exact ⟨b :: bs, mapExcept_cons_ok hb hbs⟩

lemma sum_map_add_q {α : Type} (l : List α) (f g : α → ℚ) :
    (l.map fun x => f x + g x).sum = (l.map f).sum + (l.map g).sum := by
  induction l with
  | nil => simp
  | cons a t ih => simp [ih]; ring

lemma sum_map_ite_q (cats : List String) (a : String) (x : ℚ) (hnd : cats.Nodup) :
    (cats.map fun c => if a = c then x else 0).sum = if a ∈ cats then x else 0 := by
  induction cats with
  | nil => simp
  | cons c cs ih =>
    obtain ⟨hc, hcs⟩ := List.nodup_cons.mp hnd
    by_cases hac : a = c
    · subst hac
      have hz : (List.map (fun c => if a = c then x else 0) cs).sum = 0 := by
        apply List.sum_eq_zero
        intro y hy
        obtain ⟨b, hb, hyb⟩ := List.mem_map.mp hy
        rw [← hyb, if_neg fun hab : a = b => hc (hab ▸ hb)]
      rw [List.map_cons, List.sum_cons, if_pos rfl, hz, add_zero,
        if_pos (List.mem_cons_self a cs)]
    · simp only [List.map_cons, List.sum_cons, if_neg hac, ih hcs, zero_add]
      by_cases hm : a ∈ cs
      · rw [if_pos hm, if_pos (List.mem_cons_of_mem c hm)]
      · rw [if_neg hm, if_neg (by simp [hac, hm])]

lemma sum_groups_eq_total (cats : List String) (hnd : cats.Nodup) :
    ∀ pairs : List (String × ℚ),
      (cats.map fun c => ((pairs.filter fun p => decide (p.1 = c)).map Prod.snd).sum).sum
        = ((pairs.filter fun p => decide (p.1 ∈ cats)).map Prod.snd).sum := by
  intro pairs
  induction pairs with
  | nil => simp
  | cons q rest ih =>
    have hsplit : ∀ c : String,
        ((((q :: rest).filter fun p => decide (p.1 = c)).map Prod.snd).sum : ℚ)
          = (if q.1 = c then q.2 else 0)
            + ((rest.filter fun p => decide (p.1 = c)).map Prod.snd).sum := by
      intro c
      by_cases h : q.1 = c
      · simp [List.filter_cons, h]
      · simp [List.filter_cons, h]
    simp only [hsplit]
    rw [sum_map_add_q, sum_map_ite_q cats q.1 q.2 hnd, ih]
    by_cases hq : q.1 ∈ cats
    · simp [List.filter_cons, hq]
    · simp [List.filter_cons, hq]

lemma sum_map_div_q {α : Type} (l : List α) (f : α → ℚ) (d : ℚ) :
    (l.map fun x => f x / d).sum = (l.map f).sum / d := by
  induction l with
  | nil => simp
  | cons a t ih => simp [ih]; ring

/-- A computed (non-NaN-propagated) row of `cell_transition` either sums to 1
or is entirely NaN: the grouping divides each group sum by the total, which is
NaN (0/0) exactly when the filtered total mass is 0. -/
lemma rowFromResult_sum_one_or_none (groupCats groupLabels : List String) (res : List ℚ)
    (hnd : groupCats.Nodup) :
    (∃ qs : List ℚ, rowFromResult groupCats groupLabels (some res) = qs.map some ∧
        qs.sum = 1) ∨
      ∀ e ∈ rowFromResult groupCats groupLabels (some res), e = none := by
  rw [rowFromResult]
  set pairs := groupLabels.zip res with hpairs
  set total := ((pairs.filter fun p => decide (p.1 ∈ groupCats)).map Prod.snd).sum with htotal
  by_cases h0 : total = 0
  · right
    intro e he
    obtain ⟨c, _, hce⟩ := List.mem_map.mp he
    rw [← hce, if_pos h0]
  · left
    refine ⟨groupCats.map fun c =>
      (((pairs.filter fun p => decide (p.1 = c)).map Prod.snd).sum) / total, ?_, ?_⟩
    · rw [List.map_map]
      refine List.map_congr_left ?_
      intro c _
      rw [if_neg h0]
      rfl
    · rw [sum_map_div_q, sum_groups_eq_total groupCats hnd pairs, ← htotal]
      exact div_self h0

/-- C1 (amended): in both directions of a valid `cell_transition` call, every
row (forward) or column (backward) of the returned table corresponding to a
category with at least one observed member on the subset side either sums to 1
or is entirely undefined (NaN), and every row/column of a category with zero
observed members is entirely undefined.  `Nodup` holds for the categories of a
categorical column. -/
theorem cell_transition_row_stochastic_or_undefined
    (subsetCats groupCats subsetLabels groupLabels : List String)
    (push : String → Except PyExc (List ℚ)) (table : List (String × List (Option ℚ)))
    (hok : cellTransitionHalf subsetCats groupCats subsetLabels groupLabels push =
      Except.ok table)
    (hnd : groupCats.Nodup) :
    ∀ p ∈ table,
      (p.1 ∉ subsetLabels → ∀ e ∈ p.2, e = none) ∧
      ((∃ qs : List ℚ, p.2 = qs.map some ∧ qs.sum = 1) ∨ ∀ e ∈ p.2, e = none) := by
  intro p hp
  obtain ⟨s, hs, hrow⟩ := mapExcept_ok_mem _ subsetCats table hok p hp
  by_cases hmem : s ∈ subsetLabels
  · rw [transitionRow, if_pos ⟨hs, hmem⟩] at hrow
    cases hpush : push s with
    | ok d =>
      rw [hpush] at hrow
      simp only [handlePush] at hrow
      cases hrow
      refine ⟨fun habs => absurd hmem habs, ?_⟩
      exact rowFromResult_sum_one_or_none groupCats groupLabels d hnd
    | error e =>
      rw [hpush] at hrow
      simp only [handlePush] at hrow
      by_cases hnm : isNoMassVE e = true
      · rw [if_pos hnm] at hrow
        cases hrow
        refine ⟨fun habs => absurd hmem habs, Or.inr ?_⟩
        intro x hx
        obtain ⟨c, _, hcx⟩ := List.mem_map.mp hx
        exact hcx.symm
      · rw [if_neg hnm] at hrow
        cases hrow
  · rw [transitionRow, if_neg (fun hand => hmem hand.2)] at hrow
    cases hrow
    have hall : ∀ e ∈ (groupCats.map fun _ => (none : Option ℚ)), e = none := by
      intro x hx
      obtain ⟨c, _, hcx⟩ := List.mem_map.mp hx
      exact hcx.symm
    exact ⟨fun _ => hall, Or.inr hall⟩

/-- Concrete instantiation of `cell_transition_row_stochastic_or_undefined`: two
early categories of which only "A" is observed at `start`; the pushed
distribution lands entirely on late category "X", so row "A" is `[1, 0]` and
row "B" is all NaN. -/
theorem cell_transition_row_stochastic_or_undefined_witness :
    ((∃ qs : List ℚ, [some (1 : ℚ), some 0] = qs.map some ∧ qs.sum = 1) ∨
      ∀ e ∈ [some (1 : ℚ), some 0], e = none) ∧
    (("B" : String) ∉ (["A"] : List String) → ∀ e ∈ [(none : Option ℚ), none], e = none) :=
  ⟨(cell_transition_row_stochastic_or_undefined ["A", "B"] ["X", "Y"] ["A"] ["X"]
      (fun _ => Except.ok [1]) [("A", [some 1, some 0]), ("B", [none, none])]
      (by simp [cellTransitionHalf, mapExcept, transitionRow, handlePush, rowFromResult])
      (by decide) ("A", [some 1, some 0]) (by simp)).2,
   (cell_transition_row_stochastic_or_undefined ["A", "B"] ["X", "Y"] ["A"] ["X"]
      (fun _ => Except.ok [1]) [("A", [some 1, some 0]), ("B", [none, none])]
      (by simp [cellTransitionHalf, mapExcept, transitionRow, handlePush, rowFromResult])
      (by decide) ("B", [none, none]) (by simp)).1⟩

/-- C1 (counterexample to the claim as stated): a valid forward call in which
the mapping-form `late_cells` selects the single category "Y" of a column whose
only observed cell at `end` is of category "Z".  The early category "A" has an
observed member at `start` and the push succeeds with a genuine probability
distribution (non-negative, summing to 1), yet "A"'s row is entirely NaN — it
does not sum to 1, because the filtered group total is 0 and pandas' 0/0 is
NaN. -/
theorem cell_transition_row_stochastic_counterexample :
    cellTransitionHalf ["A"] ["Y"] ["A"] ["Z"] (fun _ => Except.ok [1]) =
      Except.ok [("A", [none])] ∧
    "A" ∈ (["A"] : List String) ∧
    (∀ x ∈ [(1 : ℚ)], 0 ≤ x) ∧ ([(1 : ℚ)]).sum = 1 ∧
    ¬ ∃ qs : List ℚ, ([(none : Option ℚ)] = qs.map some ∧ qs.sum = 1) := by
  refine ⟨by simp [cellTransitionHalf, mapExcept, transitionRow, handlePush, rowFromResult],
    by decide, by simp, by simp, ?_⟩
  rintro ⟨qs, hqs, -⟩
  cases qs with
  | nil => simp at hqs
  | cons q t => simp at hqs

/-- C2: during `cell_transition`, a push/pull failing with a `ValueError` whose
message contains "no mass" is caught: that category's row (forward) or column
(backward) becomes entirely NaN while the rows of the remaining categories are
still computed; any exception that is not such a `ValueError` propagates
unchanged and aborts the call. -/
theorem cell_transition_no_mass_handling
    (subsetCats groupCats subsetLabels groupLabels : List String)
    (push : String → Except PyExc (List ℚ)) (s0 : String) (l1 l2 : List String)
    (hsplit : subsetCats = l1 ++ s0 :: l2) :
    (∀ msg, push s0 = Except.error (PyExc.valueError msg) →
      strContainsSub "no mass" msg = true → s0 ∈ subsetLabels →
      (∀ s ∈ l1 ++ l2, ∃ r,
        transitionRow subsetCats groupCats subsetLabels groupLabels push s = Except.ok r) →
      ∃ t1 t2,
        cellTransitionHalf subsetCats groupCats subsetLabels groupLabels push =
          Except.ok (t1 ++ (s0, groupCats.map fun _ => none) :: t2) ∧
        mapExcept (transitionRow subsetCats groupCats subsetLabels groupLabels push) l1 =
          Except.ok t1 ∧
        mapExcept (transitionRow subsetCats groupCats subsetLabels groupLabels push) l2 =
          Except.ok t2) ∧
    (∀ e, push s0 = Except.error e → isNoMassVE e = false → s0 ∈ subsetLabels →
      (∀ s ∈ l1, ∃ r,
        transitionRow subsetCats groupCats subsetLabels groupLabels push s = Except.ok r) →
      cellTransitionHalf subsetCats groupCats subsetLabels groupLabels push =
        Except.error e) := by
  have hs0 : s0 ∈ subsetCats := hsplit ▸ List.mem_append_right l1 (List.mem_cons_self s0 l2)
  constructor
  · intro msg hpush hsub hs0lab hall
    have hrow : transitionRow subsetCats groupCats subsetLabels groupLabels push s0 =
        Except.ok (s0, groupCats.map fun _ => none) := by
      rw [transitionRow, if_pos ⟨hs0, hs0lab⟩, hpush]
      simp only [handlePush]
      rw [if_pos (by simp [isNoMassVE, hsub])]
      rfl
    obtain ⟨t1, ht1⟩ := mapExcept_ok_of_forall _ l1
      fun s hsm => hall s (List.mem_append_left l2 hsm)
    obtain ⟨t2, ht2⟩ := mapExcept_ok_of_forall _ l2
      fun s hsm => hall s (List.mem_append_right l1 hsm)
    refine ⟨t1, t2, ?_, ht1, ht2⟩
    rw [cellTransitionHalf]
    nth_rewrite 2 [hsplit]
    exact mapExcept_append_ok_ok ht1 (mapExcept_cons_ok hrow ht2)
  · intro e hpush hnm hs0lab hall
    have hrow : transitionRow subsetCats groupCats subsetLabels groupLabels push s0 =
        Except.error e := by
      rw [transitionRow, if_pos ⟨hs0, hs0lab⟩, hpush]
      simp only [handlePush]
      rw [if_neg (by simp [hnm])]
    obtain ⟨t1, ht1⟩ := mapExcept_ok_of_forall _ l1 hall
    rw [cellTransitionHalf]
    nth_rewrite 2 [hsplit]
    exact mapExcept_append_ok_error ht1 (mapExcept_cons_error hrow)

/-- Concrete instantiation of `cell_transition_no_mass_handling`: categories
`A, B, C` all observed; the push for `B` raises the "no mass" `ValueError` and
is converted to an all-NaN row with `A` and `C` still computed, while a
`TypeError` for `B` aborts the whole call. -/
theorem cell_transition_no_mass_handling_witness :
    (∃ t1 t2,
      cellTransitionHalf ["A", "B", "C"] ["X"] ["A", "B", "C"] ["X"]
          (fun s => if s = "B" then
            Except.error (PyExc.valueError "Encountered no mass at source")
          else Except.ok [1]) =
        Except.ok (t1 ++ ("B", (["X"] : List String).map fun _ => none) :: t2) ∧
      mapExcept (transitionRow ["A", "B", "C"] ["X"] ["A", "B", "C"] ["X"]
          (fun s => if s = "B" then
            Except.error (PyExc.valueError "Encountered no mass at source")
          else Except.ok [1])) ["A"] = Except.ok t1 ∧
      mapExcept (transitionRow ["A", "B", "C"] ["X"] ["A", "B", "C"] ["X"]
          (fun s => if s = "B" then
            Except.error (PyExc.valueError "Encountered no mass at source")
          else Except.ok [1])) ["C"] = Except.ok t2) ∧
    cellTransitionHalf ["A", "B", "C"] ["X"] ["A", "B", "C"] ["X"]
        (fun s => if s = "B" then Except.error (PyExc.typeError "boom")
          else Except.ok [1]) =
      Except.error (PyExc.typeError "boom") := by
  constructor
  · refine (cell_transition_no_mass_handling ["A", "B", "C"] ["X"] ["A", "B", "C"] ["X"]
      (fun s => if s = "B" then
        Except.error (PyExc.valueError "Encountered no mass at source")
      else Except.ok [1]) "B" ["A"] ["C"] rfl).1
      "Encountered no mass at source" (by simp) (by decide) (by decide) ?_
    intro s hs
    have hs2 : s = "A" ∨ s = "C" := by simpa using hs
    rcases hs2 with rfl | rfl
    · exact ⟨("A", [some 1]),
        by simp [transitionRow, handlePush, rowFromResult]⟩
    · exact ⟨("C", [some 1]),
        by simp [transitionRow, handlePush, rowFromResult]⟩
  · refine (cell_transition_no_mass_handling ["A", "B", "C"] ["X"] ["A", "B", "C"] ["X"]
      (fun s => if s = "B" then Except.error (PyExc.typeError "boom")
        else Except.ok [1]) "B" ["A"] ["C"] rfl).2
      (PyExc.typeError "boom") (by simp) (by decide) (by decide) ?_
    intro s hs
    have hs2 : s = "A" := by simpa using hs
    subst hs2
    exact ⟨("A", [some 1]),
      by simp [transitionRow, handlePush, rowFromResult]⟩

/-- Squared Euclidean distance of two feature vectors. -/
def sqeuclidean (x y : List ℚ) : ℚ :=
  ((x.zip y).map fun p => (p.1 - p.2) ^ 2).sum

/-- Modelled from the spec: `sklearn.metrics.pairwise_distances(point_cloud_1,
Y=point_cloud_2, metric="sqeuclidean")` (external to the repository) — the full
pairwise squared-Euclidean cost matrix between the two clouds. -/
def pairwise_sqeuclidean (pc1 pc2 : List (List ℚ)) : List (List ℚ) :=
  pc1.map fun x => pc2.map fun y => sqeuclidean x y

/-- The uniform weight vector `1/n` that POT's `emd2` uses when it is handed an
empty weight list. -/
def uniform_weights (n : ℕ) : List ℚ :=
  List.replicate n (1 / (n : ℚ))

/-- Column sums of a row-major matrix with `m` columns. -/
def colSums (m : ℕ) (P : List (List ℚ)) : List ℚ :=
  (List.range m).map fun j => (P.map fun row => row.getD j 0).sum

/-- A coupling of the discrete measures with weights `a` and `b`: a
non-negative `a.length × b.length` matrix whose row sums are `a` and whose
column sums are `b`. -/
def IsCoupling (a b : List ℚ) (P : List (List ℚ)) : Prop :=
  P.length = a.length ∧ (∀ row ∈ P, row.length = b.length) ∧
    (∀ row ∈ P, ∀ x ∈ row, 0 ≤ x) ∧ P.map List.sum = a ∧ colSums b.length P = b

/-- The transport cost `⟨C, P⟩` of a plan `P` under a cost matrix `C`. -/
def transportCost (C P : List (List ℚ)) : ℚ :=
  ((C.zip P).map fun rc => ((rc.1.zip rc.2).map fun p => p.1 * p.2).sum).sum

/-- Modelled from the spec: `c` is the value of the exact (non-regularized)
optimal-transport problem for weights `a`, `b` and cost matrix `C` — attained
by some coupling and minimal among all couplings.  This is the documented
behaviour of POT's `ot.emd2`, which is external to the repository. -/
def IsMinTransportCost (a b : List ℚ) (C : List (List ℚ)) (c : ℚ) : Prop :=
  (∃ P, IsCoupling a b P ∧ transportCost C P = c) ∧
    ∀ P, IsCoupling a b P → c ≤ transportCost C P

/-- Embedding of `TemporalMixin._compute_wasserstein_distance`
(src/moscot/problems/time/_mixins.py, lines 545-558): the full pairwise
squared-Euclidean cost matrix is built, `None` weights are passed to the
external solver as the empty list, and the square root of the solver's value is
returned.  `emd2` (POT's exact OT solver) is external and passed as a function
parameter. -/
noncomputable def compute_wasserstein_distance
    (emd2 : List ℚ → List ℚ → List (List ℚ) → ℚ)
    (point_cloud_1 point_cloud_2 : List (List ℚ)) (a b : Option (List ℚ)) : ℝ :=
  Real.sqrt ((emd2 (a.getD []) (b.getD [])
    (pairwise_sqeuclidean point_cloud_1 point_cloud_2) : ℚ) : ℝ)

lemma sqeuclidean_nonneg (x y : List ℚ) : 0 ≤ sqeuclidean x y := by
  apply List.sum_nonneg
  intro q hq
  obtain ⟨p, _, hpq⟩ := List.mem_map.mp hq
  rw [← hpq]
  exact sq_nonneg _

lemma pairwise_sqeuclidean_nonneg (pc1 pc2 : List (List ℚ)) :
    ∀ row ∈ pairwise_sqeuclidean pc1 pc2, ∀ x ∈ row, 0 ≤ x := by
  intro row hrow x hx
  obtain ⟨v, _, hvrow⟩ := List.mem_map.mp hrow
  rw [← hvrow] at hx
  obtain ⟨w, _, hwx⟩ := List.mem_map.mp hx
  rw [← hwx]
  exact sqeuclidean_nonneg v w

lemma transportCost_nonneg (C P : List (List ℚ))
    (hC : ∀ row ∈ C, ∀ x ∈ row, 0 ≤ x) (hP : ∀ row ∈ P, ∀ x ∈ row, 0 ≤ x) :
    0 ≤ transportCost C P := by
  apply List.sum_nonneg
  intro q hq
  obtain ⟨rc, hrc, hrcq⟩ := List.mem_map.mp hq
  rw [← hrcq]
  apply List.sum_nonneg
  intro z hz
  obtain ⟨p, hp, hpz⟩ := List.mem_map.mp hz
  rw [← hpz]
  obtain ⟨hc1, hc2⟩ := List.of_mem_zip hrc
  obtain ⟨hp1, hp2⟩ := List.of_mem_zip hp
  exact mul_nonneg (hC rc.1 hc1 p.1 hp1) (hP rc.2 hc2 p.2 hp2)

/-- C4: `_compute_wasserstein_distance` builds the full pairwise
squared-Euclidean cost matrix, hands the weights (empty, hence uniform, when
`a` or `b` is omitted) and that matrix to the exact non-regularized OT solver,
and returns the square root of the solver's minimal transport cost — the
2-Wasserstein distance between the weighted clouds.  `hemd` pins the external
solver's return value and `hmin` states that this value is the exact OT value
for the corresponding (uniform-defaulted) weights. -/
theorem compute_wasserstein_distance_spec
    (emd2 : List ℚ → List ℚ → List (List ℚ) → ℚ)
    (pc1 pc2 : List (List ℚ)) (a b : Option (List ℚ)) (c : ℚ)
    (hemd : emd2 (a.getD []) (b.getD []) (pairwise_sqeuclidean pc1 pc2) = c)
    (hmin : IsMinTransportCost
      (match a with | none => uniform_weights pc1.length | some w => w)
      (match b with | none => uniform_weights pc2.length | some w => w)
      (pairwise_sqeuclidean pc1 pc2) c) :
    compute_wasserstein_distance emd2 pc1 pc2 a b = Real.sqrt ((c : ℚ) : ℝ) ∧
    0 ≤ compute_wasserstein_distance emd2 pc1 pc2 a b ∧
    (compute_wasserstein_distance emd2 pc1 pc2 a b) ^ 2 = ((c : ℚ) : ℝ) := by
  have hc0 : 0 ≤ c := by
    obtain ⟨⟨P, hP, hPc⟩, -⟩ := hmin
    rw [← hPc]
    exact transportCost_nonneg _ _ (pairwise_sqeuclidean_nonneg pc1 pc2) hP.2.2.1
  have heq : compute_wasserstein_distance emd2 pc1 pc2 a b = Real.sqrt ((c : ℚ) : ℝ) := by
    rw [compute_wasserstein_distance, hemd]
  refine ⟨heq, heq ▸ Real.sqrt_nonneg _, ?_⟩
  rw [heq, Real.sq_sqrt (by exact_mod_cast hc0)]

/-- Concrete instantiation of `compute_wasserstein_distance_spec`: two
one-point clouds `[[0]]` and `[[3]]` with omitted weights; the only coupling is
`[[1]]`, the exact OT value is `9`, and the returned distance squares back to
it. -/
theorem compute_wasserstein_distance_spec_witness :
    compute_wasserstein_distance (fun _ _ _ => 9) [[0]] [[3]] none none =
      Real.sqrt (((9 : ℚ) : ℝ)) ∧
    (compute_wasserstein_distance (fun _ _ _ => 9) [[0]] [[3]] none none) ^ 2 =
      ((9 : ℚ) : ℝ) := by
  have hmin : IsMinTransportCost (uniform_weights 1) (uniform_weights 1)
      (pairwise_sqeuclidean [[0]] [[3]]) 9 := by
    constructor
    · refine ⟨[[1]], ⟨?_, ?_, ?_, ?_, ?_⟩, ?_⟩
      · simp [uniform_weights]
      · intro row hrow
        simp at hrow
        simp [hrow, uniform_weights]
      · intro row hrow x hx
        simp at hrow
        rw [hrow] at hx
        simp at hx
        rw [hx]
        norm_num
      · simp [uniform_weights]
      · simp [colSums, uniform_weights, List.range_succ]
      · simp [transportCost, pairwise_sqeuclidean, sqeuclidean]
        norm_num
    · rintro P ⟨hlen, hrow, hnn, hrsum, hcsum⟩
      simp only [uniform_weights, List.length_replicate] at hlen
      obtain ⟨r, hr⟩ := List.length_eq_one.mp (by simpa [uniform_weights] using hlen)
      subst hr
      have hr1 : r.length = 1 := by
        simpa [uniform_weights] using hrow r (List.mem_cons_self r [])
      obtain ⟨p, hp⟩ := List.length_eq_one.mp hr1
      subst hp
      have hpval : p = 1 := by
        have := hrsum
        simp [uniform_weights] at this
        linarith [this]
      subst hpval
      simp [transportCost, pairwise_sqeuclidean, sqeuclidean]
      norm_num
  have h := compute_wasserstein_distance_spec (fun _ _ _ => 9) [[0]] [[3]] none none 9
    rfl hmin
  exact ⟨h.1, h.2.2⟩

/-- Modelled from the spec: numpy's `RandomState` (external).  A pseudo-random
source is a state (`ℕ`) threaded through the draws; `seededInit` builds the
state from an explicit seed, `entropyInit` from OS entropy when the seed is
`None`; `choiceP` is `rng.choice(n, size, p=...)` (state, population size,
sample count, probability vector), `choiceU` is `rng.choice(n, size)` with the
probability argument omitted, which numpy documents as a uniform draw.  Both
return the drawn indices and the advanced state. -/
structure NpRandom where
  seededInit : ℤ → ℕ
  entropyInit : ℕ → ℕ
  choiceP : ℕ → ℕ → ℕ → List ℝ → List ℕ × ℕ
  choiceU : ℕ → ℕ → ℕ → List ℕ × ℕ

/-- `np.random.RandomState(seed)`
(src/moscot/problems/time/_mixins.py, line 597): an explicit seed determines
the state by itself; `None` draws the state from process-wide entropy. -/
def npRandomState (M : NpRandom) (entropy : ℕ) (seed : Option ℤ) : ℕ :=
  match seed with
  | some s => M.seededInit s
  | none => M.entropyInit entropy

/-- The row-selection probabilities of `_interpolate_gex_randomly`
(src/moscot/problems/time/_mixins.py, lines 598-602): all-ones without growth
rates, elementwise `growth_rates ** (1 - interpolation_parameter)` with them,
then divided by the vector's sum. -/
noncomputable def row_probability (sourceLen : ℕ) (growth_rates : Option (List ℝ))
    (interpolation_parameter : ℝ) : List ℝ :=
  let raw : List ℝ :=
    match growth_rates with
    | none => List.replicate sourceLen (1 : ℝ)
    | some g => g.map fun gi => gi ^ (1 - interpolation_parameter)
  raw.map fun x => x / raw.sum

/-- Embedding of `TemporalMixin._interpolate_gex_randomly`
(src/moscot/problems/time/_mixins.py, lines 588-608): a fresh `RandomState`
from the seed, a row draw over the source cells with `p = row_probability`, a
column draw over the target cells with the probability argument omitted, and
the per-sample blend `source * (1 - t) + target * t`. -/
noncomputable def interpolate_gex_randomly (M : NpRandom) (entropy : ℕ)
    (number_cells : ℕ) (source_data target_data : List (List ℝ))
    (interpolation_parameter : ℝ) (growth_rates : Option (List ℝ))
    (seed : Option ℤ) : List (List ℝ) :=
  let st0 := npRandomState M entropy seed
  let p := row_probability source_data.length growth_rates interpolation_parameter
  let rowsDraw := M.choiceP st0 source_data.length number_cells p
  let colsDraw := M.choiceU rowsDraw.2 target_data.length number_cells
  (rowsDraw.1.zip colsDraw.1).map fun rc =>
    ((source_data.getD rc.1 []).zip (target_data.getD rc.2 [])).map fun xy =>
      xy.1 * (1 - interpolation_parameter) + xy.2 * interpolation_parameter

lemma sum_map_div_r {α : Type} (l : List α) (f : α → ℝ) (d : ℝ) :
    (l.map fun x => f x / d).sum = (l.map f).sum / d := by
  induction l with
  | nil => simp
  | cons a t ih => simp [ih]; ring

/-- C7: `_interpolate_gex_randomly` draws row indices with probability
proportional to `growth_rate ^ (1 - interpolation_parameter)` when growth
rates are given (the vector handed to the row draw is the normalization of
those weights, i.e. a positive multiple of them, and sums to 1) and uniformly
(`1/n` for every source cell) otherwise; it draws column indices with the
probability argument omitted — numpy's uniform draw over the target cells —
and returns for each sampled pair the blend
`source_row * (1 - interpolation_parameter) + target_col * interpolation_parameter`. -/
theorem interpolate_gex_randomly_spec :
    (∀ (n : ℕ) (t : ℝ), row_probability n none t = List.replicate n (1 / (n : ℝ))) ∧
    (∀ (g : List ℝ) (t : ℝ), 0 < (g.map fun gi => gi ^ (1 - t)).sum →
      (∃ cc : ℝ, 0 < cc ∧
        row_probability g.length (some g) t = g.map fun gi => cc * gi ^ (1 - t)) ∧
      (row_probability g.length (some g) t).sum = 1) ∧
    (∀ (M : NpRandom) (entropy number_cells : ℕ) (src tgt : List (List ℝ)) (t : ℝ)
        (g : Option (List ℝ)) (seed : Option ℤ),
      interpolate_gex_randomly M entropy number_cells src tgt t g seed =
        ((M.choiceP (npRandomState M entropy seed) src.length number_cells
            (row_probability src.length g t)).1.zip
          (M.choiceU (M.choiceP (npRandomState M entropy seed) src.length number_cells
            (row_probability src.length g t)).2 tgt.length number_cells).1).map
          fun rc => ((src.getD rc.1 []).zip (tgt.getD rc.2 [])).map
            fun xy => xy.1 * (1 - t) + xy.2 * t) := by
  refine ⟨?_, ?_, fun _ _ _ _ _ _ _ _ => rfl⟩
  · intro n t
    simp [row_probability, List.sum_replicate, one_div]
  · intro g t hS
    constructor
    · refine ⟨1 / (g.map fun gi => gi ^ (1 - t)).sum, by positivity, ?_⟩
      simp only [row_probability, List.map_map]
      refine List.map_congr_left ?_
      intro gi _
      simp only [Function.comp_apply]
      ring
    · simp only [row_probability]
      rw [sum_map_div_r]
      simp only [List.map_id']
      exact div_self (ne_of_gt hS)

/-- Concrete instantiation of the growth-rate conjunct of
`interpolate_gex_randomly_spec` at `growth_rates = [1, 1]` and
`interpolation_parameter = 0`. -/
theorem interpolate_gex_randomly_spec_witness :
    (∃ cc : ℝ, 0 < cc ∧
      row_probability ([(1 : ℝ), 1]).length (some [1, 1]) 0 =
        ([(1 : ℝ), 1]).map fun gi => cc * gi ^ (1 - (0 : ℝ))) ∧
    (row_probability ([(1 : ℝ), 1]).length (some [1, 1]) 0).sum = 1 :=
  interpolate_gex_randomly_spec.2.1 [1, 1] 0 (by norm_num [Real.one_rpow])

/-- C8: sampling is driven only by the caller-supplied seed — with the same
non-`None` seed and identical arguments, `_interpolate_gex_randomly` (and hence
`compute_random_distance`, which passes its `seed` straight through) produces
identical output whatever the process-wide entropy is: the fresh
`RandomState(seed)` never consults global state. -/
theorem interpolate_gex_randomly_seed_determinism
    (M : NpRandom) (entropy1 entropy2 number_cells : ℕ)
    (src tgt : List (List ℝ)) (t : ℝ) (g : Option (List ℝ)) (s : ℤ) :
    interpolate_gex_randomly M entropy1 number_cells src tgt t g (some s) =
      interpolate_gex_randomly M entropy2 number_cells src tgt t g (some s) := rfl

end Moscot
